import Mathlib

/-!
Verification of the salesjourney repository's gamification, shop, webhook and
AmoCRM-integration logic.  Python code is shallowly embedded in Lean: float
arithmetic on budgets, multipliers and weights is modelled with exact rationals
(`ℚ`), Python's `int()` truncation with `truncQ`, calendar dates with integer
day numbers, nullable columns with `Option`, and database rows with explicit
record state.  Randomness (`random.choices`) is modelled by passing the draw
`r` of Python's `random.random()` as an explicit parameter.
-/

namespace SalesJourney

/-- Python `int()` applied to a (rational-modelled) float: truncation toward
zero. -/
def truncQ (q : ℚ) : ℤ :=
  if 0 ≤ q then ⌊q⌋ else ⌈q⌉

/-- The `BuffType` enum of `models.py`. -/
inductive BuffType where
  | SHARK
  | WOODPECKER
  | ZEN
deriving DecidableEq, Repr

/-- The mutable columns of a `GamificationProfile` row (`models.py`):
coins, xp, `current_streak`, and the nullable `last_activity_date`
(calendar dates are modelled as integer day numbers, so yesterday is
`today - 1`). -/
structure Profile where
  coins : ℤ
  xp : ℤ
  current_streak : ℕ
  last_activity_date : Option ℤ
deriving DecidableEq, Repr

/-- Embedding of `check_streak` (`gamification.py`), with `date.today()`
passed explicitly as `today`. -/
def check_streak (today : ℤ) (p : Profile) : Profile :=
  if p.last_activity_date = some today then p
  else if p.last_activity_date = some (today - 1) then
    { p with current_streak := p.current_streak + 1, last_activity_date := some today }
  else
    { p with current_streak := 1, last_activity_date := some today }

theorem check_streak_coins (today : ℤ) (p : Profile) :
    (check_streak today p).coins = p.coins := by
  unfold check_streak
  split <;> [rfl; skip]
  split <;> rfl

theorem check_streak_xp (today : ℤ) (p : Profile) :
    (check_streak today p).xp = p.xp := by
  unfold check_streak
  split <;> [rfl; skip]
  split <;> rfl

theorem check_streak_last (today : ℤ) (p : Profile) :
    (check_streak today p).last_activity_date = some today := by
  unfold check_streak
  split
  · next h => rw [h]
  · split <;> rfl

/-- C3: `check_streak` leaves the profile unchanged when the last activity is
today; increments `current_streak` by exactly 1 (and stamps today) when the
last activity was yesterday; and in every other case (earlier activity or no
prior activity) sets `current_streak` to 1 and stamps today. -/
theorem c3_check_streak_cases (today : ℤ) (p : Profile) :
    (p.last_activity_date = some today → check_streak today p = p)
    ∧ (p.last_activity_date = some (today - 1) →
        p.last_activity_date ≠ some today →
        check_streak today p =
          { p with current_streak := p.current_streak + 1,
                   last_activity_date := some today })
    ∧ (p.last_activity_date ≠ some today →
        p.last_activity_date ≠ some (today - 1) →
        check_streak today p =
          { p with current_streak := 1, last_activity_date := some today }) := by
  refine ⟨fun h => ?_, fun h h' => ?_, fun h h' => ?_⟩
  · simp [check_streak, h]
  · simp [check_streak, h, h']
  · simp [check_streak, h, h']

theorem c3_check_streak_cases_witness :
    ((⟨0, 0, 4, some 9⟩ : Profile).last_activity_date = some (10 - 1)) ∧
    ((⟨0, 0, 4, some 9⟩ : Profile).last_activity_date ≠ some 10) ∧
    check_streak 10 ⟨0, 0, 4, some 9⟩ = ⟨0, 0, 5, some 10⟩ := by
  refine ⟨by decide, by decide, ?_⟩
  exact (c3_check_streak_cases 10 ⟨0, 0, 4, some 9⟩).2.1 (by decide) (by decide)

/-- C10: `check_streak` is idempotent within a calendar day — a second call on
the same date changes nothing — and a single call raises `current_streak` by
at most 1. -/
theorem c10_check_streak_idempotent (today : ℤ) (p : Profile) :
    check_streak today (check_streak today p) = check_streak today p
    ∧ (check_streak today p).current_streak ≤ p.current_streak + 1 := by
  constructor
  · generalize hq : check_streak today p = q
    have h : q.last_activity_date = some today := hq ▸ check_streak_last today p
    simp [check_streak, h]
  · unfold check_streak
    split
    · exact Nat.le_succ _
    · split
      · exact le_rfl
      · exact Nat.succ_le_succ (Nat.zero_le _)

/-! Webhook reward processing (`webhooks.py`).  A transaction row is modelled
by its amount; the per-user context an event handler reads from the database
(the gamification profile and today's `DailyBuff`, if any) is supplied by a
lookup function from AmoCRM user ids, where `none` models an absent
`AmoCRMUserMap` row. -/

/-- Embedding of `_process_won_deal_reward` (`webhooks.py`), with the float
constants `1.5`, `0.5`, `1.05`, `0.1` modelled exactly as rationals.  Returns
the updated profile together with the recorded transaction amount. -/
def process_won_deal_reward (today : ℤ) (buff : Option BuffType) (budget : ℚ)
    (p : Profile) : Profile × ℤ :=
  let p1 := check_streak today p
  let multiplier : ℚ :=
    match buff with
    | some BuffType.SHARK => 3 / 2
    | some BuffType.WOODPECKER => 1 / 2
    | _ => 1
  let multiplier : ℚ :=
    if 3 < p1.current_streak then multiplier * (21 / 20) else multiplier
  let final_amount := truncQ (budget * multiplier)
  ({ p1 with coins := p1.coins + final_amount,
             xp := p1.xp + truncQ ((final_amount : ℚ) * (1 / 10)) },
   final_amount)

/-- Embedding of `_process_call_reward` (`webhooks.py`). -/
def process_call_reward (today : ℤ) (buff : Option BuffType) (duration : ℤ)
    (p : Profile) : Profile × ℤ :=
  let p1 := check_streak today p
  let base_points : ℚ := (duration : ℚ)
  let multiplier : ℚ :=
    match buff with
    | some BuffType.WOODPECKER => 3 / 2
    | some BuffType.SHARK => 1 / 2
    | _ => 1
  let final_amount := truncQ (base_points * multiplier)
  ({ p1 with coins := p1.coins + final_amount, xp := p1.xp + 5 }, final_amount)

/-- One parsed `leads[status]` webhook event after the numeric conversions of
`handle_amo_events`: `int(lead.get('status_id', 0))`,
`int(lead.get('responsible_user_id', 0))`, `float(lead.get('price', 0))`. -/
structure LeadEvent where
  status_id : ℤ
  responsible_user_id : ℤ
  price : ℚ
deriving DecidableEq, Repr

/-- One parsed `calls[add]` webhook event after `int(call.get('duration', 0))`
and `int(call.get('responsible_user_id', 0))`. -/
structure CallEvent where
  duration : ℤ
  responsible_user_id : ℤ
deriving DecidableEq, Repr

/-- The lead branch of `handle_amo_events` (`webhooks.py`) for one parsed
event: skip unless `status_id == 142` (`WON_STATUS_ID`), skip a falsy
responsible user id, skip an unmapped user, skip `budget <= 0`; otherwise run
`_process_won_deal_reward`.  `none` means the event awarded nothing and no row
was touched. -/
def handle_lead_event (today : ℤ)
    (lookup : ℤ → Option (Profile × Option BuffType)) (ev : LeadEvent) :
    Option (Profile × ℤ) :=
  if ev.status_id ≠ 142 then none
  else if ev.responsible_user_id = 0 then none
  else
    match lookup ev.responsible_user_id with
    | none => none
    | some (p, buff) =>
      if ev.price ≤ 0 then none
      else some (process_won_deal_reward today buff ev.price p)

/-- The call branch of `handle_amo_events` (`webhooks.py`) for one parsed
event: skip calls shorter than `MIN_CALL_DURATION = 10` seconds, skip an
unmapped user; otherwise run `_process_call_reward`. -/
def handle_call_event (today : ℤ)
    (lookup : ℤ → Option (Profile × Option BuffType)) (ev : CallEvent) :
    Option (Profile × ℤ) :=
  if ev.duration < 10 then none
  else
    match lookup ev.responsible_user_id with
    | none => none
    | some (p, buff) => some (process_call_reward today buff ev.duration p)

/-- C1: a won-deal webhook event (status 142) for a mapped responsible user
with budget `b > 0` increases the user's coins by `int(b * m * s)` — where
`m` is 1.5 for today's SHARK buff, 0.5 for WOODPECKER, 1.0 for ZEN or no
buff, and `s` is 1.05 when `current_streak` after the streak update exceeds
3, else 1.0 — and increases xp by `int(0.1 * that coin amount)`; events with
budget ≤ 0 or an unmapped responsible user change nothing. -/
theorem c1_won_deal_reward (today : ℤ)
    (lookup : ℤ → Option (Profile × Option BuffType)) (ev : LeadEvent)
    (p : Profile) (buff : Option BuffType) :
    (ev.status_id = 142 → ev.responsible_user_id ≠ 0 →
      lookup ev.responsible_user_id = some (p, buff) → 0 < ev.price →
      ∃ p' : Profile, ∃ amt : ℤ,
        handle_lead_event today lookup ev = some (p', amt)
        ∧ amt = truncQ (ev.price *
            (match buff with
             | some BuffType.SHARK => (3 : ℚ) / 2
             | some BuffType.WOODPECKER => (1 : ℚ) / 2
             | _ => (1 : ℚ)) *
            (if 3 < (check_streak today p).current_streak then (21 : ℚ) / 20
             else 1))
        ∧ p'.coins = p.coins + amt
        ∧ p'.xp = p.xp + truncQ ((1 / 10 : ℚ) * (amt : ℚ)))
    ∧ (ev.price ≤ 0 → handle_lead_event today lookup ev = none)
    ∧ (lookup ev.responsible_user_id = none →
        handle_lead_event today lookup ev = none) := by
  refine ⟨fun hs hr hl hp => ?_, fun hp => ?_, fun hl => ?_⟩
  · have hrun : handle_lead_event today lookup ev
        = some (process_won_deal_reward today buff ev.price p) := by
      simp [handle_lead_event, hs, hr, hl, not_le.mpr hp]
    refine ⟨(process_won_deal_reward today buff ev.price p).1,
            (process_won_deal_reward today buff ev.price p).2,
            by rw [hrun], ?_, ?_, ?_⟩
    · simp only [process_won_deal_reward]
      split
      · congr 1
        ring
      · congr 1
        ring
    · simp only [process_won_deal_reward, check_streak_coins]
    · simp only [process_won_deal_reward, check_streak_xp]
      congr 2
      ring
  · unfold handle_lead_event
    split
    · rfl
    · split
      · rfl
      · split
        · rfl
        · simp [hp]
  · unfold handle_lead_event
    split
    · rfl
    · split
      · rfl
      · split <;> simp_all

theorem c1_won_deal_reward_witness :
    ((⟨142, 7, 1000⟩ : LeadEvent).status_id = 142)
    ∧ ((⟨142, 7, 1000⟩ : LeadEvent).responsible_user_id ≠ 0)
    ∧ ((fun i => if i = (7 : ℤ) then
          some ((⟨0, 0, 4, some (-1)⟩ : Profile), some BuffType.SHARK)
        else none) 7
        = some ((⟨0, 0, 4, some (-1)⟩ : Profile), some BuffType.SHARK))
    ∧ (0 < (⟨142, 7, 1000⟩ : LeadEvent).price)
    ∧ (∃ p' : Profile, ∃ amt : ℤ,
        handle_lead_event 0
          (fun i => if i = (7 : ℤ) then
            some ((⟨0, 0, 4, some (-1)⟩ : Profile), some BuffType.SHARK)
          else none) ⟨142, 7, 1000⟩ = some (p', amt)
        ∧ amt = truncQ ((1000 : ℚ) * ((3 : ℚ) / 2) *
            (if 3 < (check_streak 0 ⟨0, 0, 4, some (-1)⟩).current_streak
             then (21 : ℚ) / 20 else 1))
        ∧ p'.coins = 0 + amt
        ∧ p'.xp = 0 + truncQ ((1 / 10 : ℚ) * (amt : ℚ))) := by
  refine ⟨rfl, by decide, rfl, by norm_num, ?_⟩
  exact (c1_won_deal_reward 0 _ ⟨142, 7, 1000⟩ ⟨0, 0, 4, some (-1)⟩
    (some BuffType.SHARK)).1 rfl (by decide) rfl (by norm_num)

/-- C5: a `calls.add` webhook event with duration below 10 seconds awards
nothing; for a mapped user and duration ≥ 10, coins increase by
`int(duration * m)` with `m` = 1.5 for today's WOODPECKER buff, 0.5 for
SHARK, 1.0 otherwise (the inverse of the won-deal multipliers), and xp
increases by the fixed 5. -/
theorem c5_call_reward (today : ℤ)
    (lookup : ℤ → Option (Profile × Option BuffType)) (ev : CallEvent)
    (p : Profile) (buff : Option BuffType) :
    (ev.duration < 10 → handle_call_event today lookup ev = none)
    ∧ (10 ≤ ev.duration → lookup ev.responsible_user_id = some (p, buff) →
      ∃ p' : Profile, ∃ amt : ℤ,
        handle_call_event today lookup ev = some (p', amt)
        ∧ amt = truncQ ((ev.duration : ℚ) *
            (match buff with
             | some BuffType.WOODPECKER => (3 : ℚ) / 2
             | some BuffType.SHARK => (1 : ℚ) / 2
             | _ => (1 : ℚ)))
        ∧ p'.coins = p.coins + amt
        ∧ p'.xp = p.xp + 5)
    ∧ (lookup ev.responsible_user_id = none →
        handle_call_event today lookup ev = none) := by
  refine ⟨fun hd => ?_, fun hd hl => ?_, fun hl => ?_⟩
  · simp [handle_call_event, hd]
  · have hrun : handle_call_event today lookup ev
        = some (process_call_reward today buff ev.duration p) := by
      simp [handle_call_event, not_lt.mpr hd, hl]
    refine ⟨(process_call_reward today buff ev.duration p).1,
            (process_call_reward today buff ev.duration p).2,
            by rw [hrun], rfl, ?_, ?_⟩
    · simp only [process_call_reward, check_streak_coins]
    · simp only [process_call_reward, check_streak_xp]
  · unfold handle_call_event
    split
    · rfl
    · split <;> simp_all

theorem c5_call_reward_witness :
    (10 ≤ (⟨45, 9⟩ : CallEvent).duration)
    ∧ ((fun i => if i = (9 : ℤ) then
          some ((⟨3, 3, 0, none⟩ : Profile), (none : Option BuffType))
        else none) 9
        = some ((⟨3, 3, 0, none⟩ : Profile), (none : Option BuffType)))
    ∧ (∃ p' : Profile, ∃ amt : ℤ,
        handle_call_event 5
          (fun i => if i = (9 : ℤ) then
            some ((⟨3, 3, 0, none⟩ : Profile), (none : Option BuffType))
          else none) ⟨45, 9⟩ = some (p', amt)
        ∧ amt = truncQ (((45 : ℤ) : ℚ) * (1 : ℚ))
        ∧ p'.coins = 3 + amt
        ∧ p'.xp = 3 + 5) := by
  refine ⟨by decide, rfl, ?_⟩
  exact (c5_call_reward 5 _ ⟨45, 9⟩ ⟨3, 3, 0, none⟩ none).2.1 (by decide) rfl

/-! Shop logic (`shop.py`).  `random.choices(population, weights=weights, k=1)`
is embedded following CPython's implementation: cumulative weights via
`itertools.accumulate`, a `ValueError` when the total weight is not positive,
and selection by `bisect.bisect_right(cum_weights, random() * total, 0, n - 1)`
where `r` stands for the `random.random()` draw. -/

/-- The `ShopItemType` enum of `models.py`. -/
inductive ShopItemType where
  | REAL
  | DIGITAL
  | MYSTERY_BOX
deriving DecidableEq, Repr

/-- One entry of a mystery box's `attributes['loot_table']` JSON list; absent
keys are `none`. -/
structure LootEntry where
  name : String
  ptype : Option String
  amount : Option ℤ
  weight : Option ℚ
  description : Option String
deriving DecidableEq, Repr

/-- The columns of a `ShopItem` row used by `buy_item` / `open_mystery_box`;
`loot_table` is `(item.attributes or {}).get('loot_table', [])`, so a missing
table is the empty list. -/
structure ShopItem where
  id : ℕ
  price : ℤ
  itype : ShopItemType
  loot_table : List LootEntry
deriving DecidableEq, Repr

/-- Python `itertools.accumulate` with running total `a`. -/
def cumAcc (a : ℚ) : List ℚ → List ℚ
  | [] => []
  | w :: ws => (a + w) :: cumAcc (a + w) ws

/-- Python `bisect.bisect_right(l, x, lo, hi)`: binary search returning the
insertion point, bounded by `hi`. -/
def bisectRight (l : List ℚ) (x : ℚ) (lo hi : ℕ) : ℕ :=
  if lo < hi then
    if x < l.getD ((lo + hi) / 2) 0 then bisectRight l x lo ((lo + hi) / 2)
    else bisectRight l x ((lo + hi) / 2 + 1) hi
  else lo
termination_by hi - lo
decreasing_by
  · omega
  · omega

theorem bisectRight_le_aux (l : List ℚ) (x : ℚ) :
    ∀ (n lo hi : ℕ), hi - lo ≤ n → lo ≤ hi → bisectRight l x lo hi ≤ hi := by
  intro n
  induction n with
  | zero =>
    intro lo hi h1 h2
    unfold bisectRight
    rw [if_neg (by omega)]
    exact h2
  | succ n ih =>
    intro lo hi h1 h2
    unfold bisectRight
    by_cases hlt : lo < hi
    · rw [if_pos hlt]
      by_cases hx : x < l.getD ((lo + hi) / 2) 0
      · rw [if_pos hx]
        have h3 := ih lo ((lo + hi) / 2) (by omega) (by omega)
        omega
      · rw [if_neg hx]
        exact ih ((lo + hi) / 2 + 1) hi (by omega) (by omega)
    · rw [if_neg hlt]
      exact h2

theorem bisectRight_le (l : List ℚ) (x : ℚ) (lo hi : ℕ) (h : lo ≤ hi) :
    bisectRight l x lo hi ≤ hi :=
  bisectRight_le_aux l x (hi - lo) lo hi le_rfl h

theorem bisectRight_self (l : List ℚ) (x : ℚ) (n : ℕ) :
    bisectRight l x n n = n := by
  unfold bisectRight
  simp

theorem getD_mem_of_lt {α : Type} (d : α) :
    ∀ (l : List α) (n : ℕ), n < l.length → l.getD n d ∈ l := by
  intro l
  induction l with
  | nil => intro n h; simp at h
  | cons a t ih =>
    intro n h
    cases n with
    | zero => simp [List.getD]
    | succ m =>
      have := ih m (by simpa using h)
      simp only [List.getD] at this ⊢
      exact List.mem_cons_of_mem a this

/-- The fixed result dict returned by `open_mystery_box` for a missing or
empty loot table. -/
def empty_box_result : LootEntry :=
  ⟨"Empty Box", some "miss", none, none, some "В коробке было пусто..."⟩

/-- The weights list `[entry.get('weight', 1) for entry in loot_table]`. -/
def loot_weights (loot : List LootEntry) : List ℚ :=
  loot.map (fun e => e.weight.getD 1)

/-- The total `cum_weights[-1]` that `random.choices` compares against zero. -/
def total_weight (loot : List LootEntry) : ℚ :=
  (cumAcc 0 (loot_weights loot)).getLastD 0

/-- Embedding of `open_mystery_box` (`shop.py`), including the `ValueError`
(`Except.error`) that `random.choices` raises when the total of the weights is
not positive.  `r` is the `random.random()` draw. -/
def open_mystery_box (item : ShopItem) (r : ℚ) : Except String LootEntry :=
  if item.loot_table = [] then .ok empty_box_result
  else
    let cum := cumAcc 0 (loot_weights item.loot_table)
    let total := cum.getLastD 0
    if total ≤ 0 then .error "Total of weights must be greater than zero"
    else .ok (item.loot_table.getD
      (bisectRight cum (r * total) 0 (item.loot_table.length - 1))
      empty_box_result)

/-- C4 counterexample: a non-empty loot table whose single entry has weight 0
makes `random.choices` raise `ValueError` inside `open_mystery_box`, so no
element of the loot table is returned, contrary to the claim. -/
def c4_zero_weight_item : ShopItem :=
  ⟨2, 3, .MYSTERY_BOX, [⟨"Dust", some "title", none, some 0, none⟩]⟩

theorem c4_counterexample :
    c4_zero_weight_item.loot_table ≠ []
    ∧ open_mystery_box c4_zero_weight_item (1 / 2)
        = .error "Total of weights must be greater than zero" := by
  constructor
  · simp [c4_zero_weight_item]
  · rw [open_mystery_box, if_neg (by simp [c4_zero_weight_item])]
    rw [if_pos (by norm_num [c4_zero_weight_item, loot_weights, cumAcc])]

/-- C4 (amended): `open_mystery_box` returns the fixed Empty-Box miss entry
when the loot table is missing or empty; for a non-empty loot table whose
total weight (weights defaulting to 1) is positive the result is an element
of the loot table for every random draw; and for a non-empty loot table with
non-positive total weight it raises (`random.choices` `ValueError`). -/
theorem c4_mystery_box_amended (item : ShopItem) (r : ℚ) :
    (item.loot_table = [] → open_mystery_box item r = .ok empty_box_result)
    ∧ (item.loot_table ≠ [] → 0 < total_weight item.loot_table →
        ∃ e, e ∈ item.loot_table ∧ open_mystery_box item r = .ok e)
    ∧ (item.loot_table ≠ [] → total_weight item.loot_table ≤ 0 →
        open_mystery_box item r
          = .error "Total of weights must be greater than zero") := by
  refine ⟨fun h => ?_, fun h h2 => ?_, fun h h2 => ?_⟩
  · simp [open_mystery_box, h]
  · refine ⟨item.loot_table.getD
      (bisectRight (cumAcc 0 (loot_weights item.loot_table))
        ((r * total_weight item.loot_table)) 0 (item.loot_table.length - 1))
      empty_box_result, ?_, ?_⟩
    · have hlen : 0 < item.loot_table.length := List.length_pos.mpr h
      have hle := bisectRight_le (cumAcc 0 (loot_weights item.loot_table))
        (r * total_weight item.loot_table) 0 (item.loot_table.length - 1)
        (Nat.zero_le _)
      exact getD_mem_of_lt empty_box_result item.loot_table _ (by omega)
    · rw [open_mystery_box, if_neg h]
      rw [if_neg (not_le.mpr (by exact h2))]
      rfl
  · rw [open_mystery_box, if_neg h]
    rw [if_pos (by exact h2)]

theorem c4_mystery_box_amended_witness :
    ((⟨5, 10, ShopItemType.MYSTERY_BOX,
        [⟨"Coins", some "coins", some 50, some 3, none⟩,
         ⟨"Mug", some "real", none, none, none⟩]⟩ : ShopItem).loot_table ≠ [])
    ∧ (0 < total_weight (⟨5, 10, ShopItemType.MYSTERY_BOX,
        [⟨"Coins", some "coins", some 50, some 3, none⟩,
         ⟨"Mug", some "real", none, none, none⟩]⟩ : ShopItem).loot_table)
    ∧ (∃ e, e ∈ (⟨5, 10, ShopItemType.MYSTERY_BOX,
        [⟨"Coins", some "coins", some 50, some 3, none⟩,
         ⟨"Mug", some "real", none, none, none⟩]⟩ : ShopItem).loot_table
        ∧ open_mystery_box (⟨5, 10, ShopItemType.MYSTERY_BOX,
            [⟨"Coins", some "coins", some 50, some 3, none⟩,
             ⟨"Mug", some "real", none, none, none⟩]⟩ : ShopItem) (1 / 3)
            = .ok e) := by
  refine ⟨by simp, by norm_num [total_weight, loot_weights, cumAcc], ?_⟩
  exact (c4_mystery_box_amended _ (1 / 3)).2.1 (by simp)
    (by norm_num [total_weight, loot_weights, cumAcc])

/-- The buyer-visible database state that `buy_item` manipulates: the
gamification profile's coin balance, the user's transaction amounts in
insertion order, and the user's inventory rows as `(item_id, is_used)`
pairs in insertion order. -/
structure ShopState where
  coins : ℤ
  transactions : List ℤ
  inventory : List (ℕ × Bool)
deriving DecidableEq, Repr

/-- Embedding of the purchase core of `buy_item` (`shop.py`), entered after
the item has been found and is available to the buyer.  The response is
modelled as `(HTTP status, error message)`.  Two in-`try` failure paths end
in the `except` handler, which rolls the session back and answers 500
"Transaction failed": a `ValueError` raised by `open_mystery_box`, and a
prize of type `real`/`title`/`physical` — for those, `shop.py` creates a
`FeedEvent` without its NOT NULL `company_id` (`models.py`), so
`db.session.commit()` raises `IntegrityError` (and `_notify_admin_win`'s
`prize_info['name']` would raise `KeyError` even earlier for a nameless
prize); either way the purchase aborts, independent of the prize's fields,
so the model maps every such prize to the 500 outcome.  Socket
notifications carry no buyer-visible state and are omitted. -/
def buy_item (item : ShopItem) (r : ℚ) (st : ShopState) :
    (ℕ × Option String) × ShopState :=
  if st.coins < item.price then ((400, some "Not enough coins"), st)
  else
    let coins1 := st.coins - item.price
    let txns1 := st.transactions ++ [-item.price]
    if item.itype = ShopItemType.MYSTERY_BOX then
      match open_mystery_box item r with
      | .error _ => ((500, some "Transaction failed"), st)
      | .ok prize =>
        if prize.ptype = some "coins" then
          let amount := prize.amount.getD 0
          ((200, none),
           ⟨coins1 + amount, txns1 ++ [amount],
            st.inventory ++ [(item.id, true)]⟩)
        else if prize.ptype = some "real" ∨ prize.ptype = some "title"
            ∨ prize.ptype = some "physical" then
          ((500, some "Transaction failed"), st)
        else
          ((200, none), ⟨coins1, txns1, st.inventory ++ [(item.id, true)]⟩)
    else
      ((200, none), ⟨coins1, txns1, st.inventory ++ [(item.id, false)]⟩)

/-- C2 counterexamples, one per failing path of the sufficient-balance
branch: a mystery box whose loot table has total weight 0 (`random.choices`
raises `ValueError`), and a mystery box whose only prize has type `real`
(the `FeedEvent` insert without its NOT NULL `company_id` makes the commit
raise `IntegrityError`).  In both cases the balance covers the price, yet
the purchase answers HTTP 500 and records no coin change, no transaction
and no inventory row, contrary to the claim. -/
def c2_zero_weight_item : ShopItem :=
  ⟨1, 5, .MYSTERY_BOX, [⟨"Gold", some "coins", some 10, some 0, none⟩]⟩

def c2_real_prize_item : ShopItem :=
  ⟨4, 6, .MYSTERY_BOX, [⟨"Bike", some "real", none, some 2, none⟩]⟩

theorem c2_counterexample :
    (¬ ((⟨10, [], []⟩ : ShopState).coins < c2_zero_weight_item.price)
      ∧ buy_item c2_zero_weight_item (1 / 2) ⟨10, [], []⟩
          = ((500, some "Transaction failed"), ⟨10, [], []⟩))
    ∧ (¬ ((⟨20, [], []⟩ : ShopState).coins < c2_real_prize_item.price)
      ∧ buy_item c2_real_prize_item (1 / 2) ⟨20, [], []⟩
          = ((500, some "Transaction failed"), ⟨20, [], []⟩)) := by
  refine ⟨⟨by decide, ?_⟩, ⟨by decide, ?_⟩⟩
  · have herr : open_mystery_box c2_zero_weight_item (1 / 2)
        = .error "Total of weights must be greater than zero" := by
      rw [open_mystery_box, if_neg (by simp [c2_zero_weight_item])]
      rw [if_pos (by norm_num [c2_zero_weight_item, loot_weights, cumAcc])]
    rw [buy_item, if_neg (by decide), if_pos (by decide), herr]
  · have hopen : open_mystery_box c2_real_prize_item (1 / 2)
        = .ok ⟨"Bike", some "real", none, some 2, none⟩ := by
      rw [open_mystery_box, if_neg (by simp [c2_real_prize_item])]
      rw [if_neg (by norm_num [c2_real_prize_item, loot_weights, cumAcc])]
      simp [c2_real_prize_item, bisectRight_self, List.getD]
    rw [buy_item, if_neg (by decide), if_pos (by decide), hopen]
    decide

theorem buy_item_ok_reduce (item : ShopItem) (r : ℚ) (st : ShopState)
    (prize : LootEntry) (h : ¬ st.coins < item.price)
    (h2 : item.itype = ShopItemType.MYSTERY_BOX)
    (h3 : open_mystery_box item r = .ok prize) :
    buy_item item r st
      = if prize.ptype = some "coins" then
          ((200, none),
           ⟨st.coins - item.price + prize.amount.getD 0,
            st.transactions ++ [-item.price] ++ [prize.amount.getD 0],
            st.inventory ++ [(item.id, true)]⟩)
        else if prize.ptype = some "real" ∨ prize.ptype = some "title"
            ∨ prize.ptype = some "physical" then
          ((500, some "Transaction failed"), st)
        else
          ((200, none),
           ⟨st.coins - item.price, st.transactions ++ [-item.price],
            st.inventory ++ [(item.id, true)]⟩) := by
  rw [buy_item, if_neg h, if_pos h2, h3]

/-- C2 (amended): with insufficient coins `buy_item` answers HTTP 400
"Not enough coins" and changes nothing; with sufficient coins it deducts
exactly the price, records one transaction of `-price`, and adds exactly one
inventory row for the item (with a coin prize added back on top for a
"coins" mystery prize) — except that a mystery box purchase aborts with
HTTP 500, leaving coins, transactions and inventory unchanged, when
`random.choices` raises on a non-positive total loot weight, or when the
drawn prize has type real/title/physical (the `FeedEvent` insert lacks its
NOT NULL `company_id`, so the commit raises). -/
theorem c2_buy_item_amended (item : ShopItem) (r : ℚ) (st : ShopState) :
    (st.coins < item.price →
      buy_item item r st = ((400, some "Not enough coins"), st))
    ∧ (¬ st.coins < item.price → item.itype ≠ ShopItemType.MYSTERY_BOX →
      buy_item item r st =
        ((200, none),
         ⟨st.coins - item.price, st.transactions ++ [-item.price],
          st.inventory ++ [(item.id, false)]⟩))
    ∧ (∀ prize : LootEntry, ¬ st.coins < item.price →
      item.itype = ShopItemType.MYSTERY_BOX →
      open_mystery_box item r = .ok prize →
      ¬ (prize.ptype = some "real" ∨ prize.ptype = some "title"
          ∨ prize.ptype = some "physical") →
      (buy_item item r st).2.coins
          = st.coins - item.price
            + (if prize.ptype = some "coins" then prize.amount.getD 0 else 0)
      ∧ (buy_item item r st).2.transactions
          = st.transactions ++ [-item.price]
            ++ (if prize.ptype = some "coins" then [prize.amount.getD 0]
                else [])
      ∧ (buy_item item r st).2.inventory = st.inventory ++ [(item.id, true)]
      ∧ (buy_item item r st).1 = (200, none))
    ∧ (∀ prize : LootEntry, ¬ st.coins < item.price →
      item.itype = ShopItemType.MYSTERY_BOX →
      open_mystery_box item r = .ok prize →
      (prize.ptype = some "real" ∨ prize.ptype = some "title"
        ∨ prize.ptype = some "physical") →
      buy_item item r st = ((500, some "Transaction failed"), st))
    ∧ (∀ msg : String, ¬ st.coins < item.price →
      item.itype = ShopItemType.MYSTERY_BOX →
      open_mystery_box item r = .error msg →
      buy_item item r st = ((500, some "Transaction failed"), st)) := by
  refine ⟨fun h => ?_, fun h h2 => ?_, fun prize h h2 h3 h4 => ?_,
          fun prize h h2 h3 h4 => ?_, fun msg h h2 h3 => ?_⟩
  · simp [buy_item, h]
  · simp [buy_item, h, h2]
  · have hb := buy_item_ok_reduce item r st prize h h2 h3
    by_cases hp : prize.ptype = some "coins"
    · simp [hb, hp, List.append_assoc]
    · simp [hb, hp, h4]
  · have hb := buy_item_ok_reduce item r st prize h h2 h3
    have hp : ¬ prize.ptype = some "coins" := by
      rcases h4 with h4 | h4 | h4 <;> simp [h4]
    rw [hb, if_neg hp, if_pos h4]
  · rw [buy_item, if_neg h, if_pos h2, h3]

theorem c2_buy_item_amended_witness :
    ¬ ((⟨9, [7], [(2, false)]⟩ : ShopState).coins
        < (⟨3, 4, ShopItemType.REAL, []⟩ : ShopItem).price)
    ∧ ((⟨3, 4, ShopItemType.REAL, []⟩ : ShopItem).itype
        ≠ ShopItemType.MYSTERY_BOX)
    ∧ buy_item ⟨3, 4, ShopItemType.REAL, []⟩ 0 ⟨9, [7], [(2, false)]⟩
        = ((200, none), ⟨9 - 4, [7] ++ [-4], [(2, false)] ++ [(3, false)]⟩) := by
  refine ⟨by decide, by decide, ?_⟩
  exact (c2_buy_item_amended ⟨3, 4, ShopItemType.REAL, []⟩ 0
    ⟨9, [7], [(2, false)]⟩).2.1 (by decide) (by decide)

/-! AmoCRM OAuth token refresh (`amocrm_integration.py`).  The stored
`AmoCRMConnection` row for the company is modelled as `Option AmoCRMConnection`
(`none` = no row), Python truthiness of the nullable text/integer columns is
modelled explicitly, and the token endpoint's answer is passed in as a status
code plus parsed JSON body. -/

/-- The columns of an `AmoCRMConnection` row touched by `_refresh_if_needed`
and `_save_tokens`. -/
structure AmoCRMConnection where
  access_token : Option String
  refresh_token : Option String
  expires_at : Option ℤ
  base_domain : Option String
  last_sync_at : Option ℤ
deriving DecidableEq, Repr

/-- The parsed JSON body of a token-endpoint answer, as read by
`_save_tokens`: `data.get('access_token')`, `data.get('refresh_token')`,
`int(data.get('expires_in', 0))`, and `data['base_domain']` when present. -/
structure TokenData where
  access_token : Option String
  refresh_token : Option String
  expires_in : ℤ
  base_domain : Option String
deriving DecidableEq, Repr

/-- Python truthiness of a nullable text column: `None` and `""` are falsy. -/
def truthyStr : Option String → Bool
  | none => false
  | some s => s ≠ ""

/-- Python truthiness of `conn.expires_at` combined with the freshness test:
`conn.expires_at and now + 60 < conn.expires_at`. -/
def expiresFresh (ea : Option ℤ) (now : ℤ) : Bool :=
  match ea with
  | none => false
  | some e => e ≠ 0 && now + 60 < e

/-- Embedding of `_save_tokens` (`amocrm_integration.py`): stores the new
access and refresh tokens, `expires_at = int(time.time()) + expires_in`,
the base domain when the answer carries one, and stamps `last_sync_at`. -/
def save_tokens (conn : AmoCRMConnection) (data : TokenData) (now : ℤ) :
    AmoCRMConnection :=
  { conn with
      access_token := data.access_token,
      refresh_token := data.refresh_token,
      expires_at := some (now + data.expires_in),
      base_domain := match data.base_domain with
        | some b => some b
        | none => conn.base_domain,
      last_sync_at := some now }

/-- Embedding of `_refresh_if_needed` (`amocrm_integration.py`).  Input: the
stored row (`none` = absent), the current time, and the token endpoint's
answer `(status, body)` — used only when a refresh is attempted.  Output:
(the function's return value, the stored row afterwards).  A 200 answer saves
tokens and returns the connection; 400/401 deletes the row (`_clear_tokens`)
and returns `none`; any other status returns `none` but keeps the row. -/
def refresh_if_needed (store : Option AmoCRMConnection) (now : ℤ)
    (resp : ℤ × TokenData) :
    Option AmoCRMConnection × Option AmoCRMConnection :=
  match store with
  | none => (none, none)
  | some conn =>
    if truthyStr conn.refresh_token = false then (some conn, some conn)
    else if expiresFresh conn.expires_at now then (some conn, some conn)
    else if resp.1 = 200 then
      (some (save_tokens conn resp.2 now), some (save_tokens conn resp.2 now))
    else if resp.1 = 400 ∨ resp.1 = 401 then (none, none)
    else (none, some conn)

/-- C6: `_refresh_if_needed` returns the stored connection unchanged when
there is no row, no (truthy) refresh token, or the access token expires more
than 60 seconds in the future; when a refresh is attempted, a 400/401 answer
deletes the stored row and returns `None`, and a 200 answer saves the new
access token, refresh token and expiry (`now + expires_in`) and returns the
connection. -/
theorem c6_refresh_if_needed (conn : AmoCRMConnection) (now : ℤ)
    (resp : ℤ × TokenData) :
    (refresh_if_needed none now resp = (none, none))
    ∧ (truthyStr conn.refresh_token = false →
        refresh_if_needed (some conn) now resp = (some conn, some conn))
    ∧ (∀ e : ℤ, conn.expires_at = some e → e ≠ 0 → now + 60 < e →
        refresh_if_needed (some conn) now resp = (some conn, some conn))
    ∧ (truthyStr conn.refresh_token = true →
        expiresFresh conn.expires_at now = false →
        (resp.1 = 400 ∨ resp.1 = 401) →
        refresh_if_needed (some conn) now resp = (none, none))
    ∧ (truthyStr conn.refresh_token = true →
        expiresFresh conn.expires_at now = false → resp.1 = 200 →
        refresh_if_needed (some conn) now resp
          = (some (save_tokens conn resp.2 now),
             some (save_tokens conn resp.2 now))
        ∧ (save_tokens conn resp.2 now).access_token = resp.2.access_token
        ∧ (save_tokens conn resp.2 now).refresh_token = resp.2.refresh_token
        ∧ (save_tokens conn resp.2 now).expires_at
            = some (now + resp.2.expires_in)) := by
  refine ⟨rfl, fun h => ?_, fun e he hz hf => ?_, fun h h2 h3 => ?_,
          fun h h2 h3 => ?_⟩
  · simp [refresh_if_needed, h]
  · by_cases hr : truthyStr conn.refresh_token = false
    · simp [refresh_if_needed, hr]
    · have hfresh : expiresFresh conn.expires_at now = true := by
        simp [expiresFresh, he, hz, hf]
      simp [refresh_if_needed, hr, hfresh]
  · have h400 : (resp.1 = 200) = False := by
      rcases h3 with h3 | h3 <;> simp [h3]
    simp [refresh_if_needed, h, h2, h400, h3]
  · refine ⟨by simp [refresh_if_needed, h, h2, h3], rfl, rfl, rfl⟩

theorem c6_refresh_if_needed_witness :
    (truthyStr (⟨some "at", some "rt", some 50, some "x.amocrm.ru", none⟩ :
        AmoCRMConnection).refresh_token = true)
    ∧ (expiresFresh (⟨some "at", some "rt", some 50, some "x.amocrm.ru",
        none⟩ : AmoCRMConnection).expires_at 100 = false)
    ∧ (((401 : ℤ), (⟨some "n", some "m", 86400, none⟩ : TokenData)).1 = 400
        ∨ ((401 : ℤ), (⟨some "n", some "m", 86400, none⟩ : TokenData)).1 = 401)
    ∧ refresh_if_needed
        (some ⟨some "at", some "rt", some 50, some "x.amocrm.ru", none⟩) 100
        (401, ⟨some "n", some "m", 86400, none⟩) = (none, none) := by
  refine ⟨by decide, by decide, by decide, ?_⟩
  exact (c6_refresh_if_needed
    ⟨some "at", some "rt", some 50, some "x.amocrm.ru", none⟩ 100
    (401, ⟨some "n", some "m", 86400, none⟩)).2.2.2.1
    (by decide) (by decide) (by decide)

/-! Paginated AmoCRM aggregation (`amocrm_integration.py`).  The answer the
server gives to the request for page `k` (`limit = 250`) is the `k`-th element
of a finite response list; `fail` stands for a non-200 status.  Each loop is
embedded by recursion that consumes that list in page order starting at
page 1. -/

/-- One HTTP answer of a paginated AmoCRM endpoint: a non-200 status, or a
200 body whose `_embedded` list holds the page's entries. -/
inductive AmoPage (α : Type) where
  | fail : AmoPage α
  | ok : List α → AmoPage α
deriving DecidableEq, Repr

/-- The pages a pagination loop with page size `limit` actually fetches and
processes: everything up to the first non-200 answer, exhausted response
list, or page with fewer than `limit` entries (which includes an empty
page). -/
def consumed_pages {α : Type} (limit : ℕ) : List (AmoPage α) → List (List α)
  | [] => []
  | .fail :: _ => []
  | .ok es :: rest =>
      es :: (if es.length < limit then [] else consumed_pages limit rest)

/-- One user object of `/api/v4/users`, with `id`, `name` and `email` as
(possibly absent) JSON fields; `email` is `some` only for a string value,
matching the `isinstance` guard. -/
structure AmoUser where
  id : Option ℤ
  name : Option String
  email : Option String
deriving DecidableEq, Repr

/-- The value `_fetch_users_map` stores per user id. -/
structure UserInfo where
  id : ℤ
  name : String
  email : String
deriving DecidableEq, Repr

/-- Python dict assignment `d[k] = v` on an insertion-ordered dict: update in
place when the key exists, append otherwise. -/
def dictInsert {κ ν : Type} [DecidableEq κ] (k : κ) (v : ν) :
    List (κ × ν) → List (κ × ν)
  | [] => [(k, v)]
  | (k', v') :: rest =>
      if k' = k then (k, v) :: rest else (k', v') :: dictInsert k v rest

/-- The record built for one user entry: `u.get('name') or f"User {uid}"`
and the `isinstance`-guarded email. -/
def mk_user_info (uid : ℤ) (u : AmoUser) : UserInfo :=
  ⟨uid,
   (match u.name with
    | some s => if s = "" then "User " ++ toString uid else s
    | none => "User " ++ toString uid),
   u.email.getD ""⟩

/-- The body of the `for u in users` loop of `_fetch_users_map`: entries
without an id are skipped, the rest update the dict at `int(uid)`. -/
def users_page_step (out : List (ℤ × UserInfo)) (u : AmoUser) :
    List (ℤ × UserInfo) :=
  match u.id with
  | some uid => dictInsert uid (mk_user_info uid u) out
  | none => out

/-- The `while True` pagination loop of `_fetch_users_map`: process the
page's users into `out`, stop on a non-200 answer or once a page has fewer
than 250 entries. -/
def fetch_users_map_go :
    List (AmoPage AmoUser) → List (ℤ × UserInfo) → List (ℤ × UserInfo)
  | [], out => out
  | .fail :: _, out => out
  | .ok users :: rest, out =>
      let out2 := users.foldl users_page_step out
      if users.length < 250 then out2 else fetch_users_map_go rest out2

/-- Embedding of `_fetch_users_map` (`amocrm_integration.py`), starting at
page 1 with the empty dict. -/
def fetch_users_map (resps : List (AmoPage AmoUser)) : List (ℤ × UserInfo) :=
  fetch_users_map_go resps []

/-- One lead object as read by `_compute_stats`:
`lead.get('responsible_user_id') or 0` and `int(lead.get('status_id') or 0)`. -/
structure Lead where
  responsible_user_id : Option ℤ
  status_id : Option ℤ
deriving DecidableEq, Repr

/-- Embedding of the `_iter_created_leads` generator
(`amocrm_integration.py`): stop on non-200, stop before yielding on an empty
page, yield the page, stop after a page shorter than 250. -/
def iter_created_leads : List (AmoPage Lead) → List Lead
  | [] => []
  | .fail :: _ => []
  | .ok leads :: rest =>
      if leads = [] then []
      else leads ++ (if leads.length < 250 then [] else iter_created_leads rest)

/-- Embedding of the `_iter_closed_leads` generator, identical pagination to
`_iter_created_leads` (only the HTTP filter parameters differ). -/
def iter_closed_leads : List (AmoPage Lead) → List Lead
  | [] => []
  | .fail :: _ => []
  | .ok leads :: rest =>
      if leads = [] then []
      else leads ++ (if leads.length < 250 then [] else iter_closed_leads rest)

/-- The `by_user` counters of `_compute_stats`. -/
structure UCounts where
  created : ℕ
  won : ℕ
  lost : ℕ
deriving DecidableEq, Repr

/-- `defaultdict` access `by_user[k]` followed by a counter update. -/
def bump (k : ℤ) (f : UCounts → UCounts) :
    List (ℤ × UCounts) → List (ℤ × UCounts)
  | [] => [(k, f ⟨0, 0, 0⟩)]
  | (k', c) :: rest =>
      if k' = k then (k', f c) :: rest else (k', c) :: bump k f rest

/-- The body of the created-leads loop of `_compute_stats`. -/
def created_step (m : List (ℤ × UCounts)) (l : Lead) : List (ℤ × UCounts) :=
  bump (l.responsible_user_id.getD 0)
    (fun c => { c with created := c.created + 1 }) m

/-- The body of the closed-leads loop of `_compute_stats`: count won on
status 142, lost on status 143, touch nothing otherwise. -/
def closed_step (m : List (ℤ × UCounts)) (l : Lead) : List (ℤ × UCounts) :=
  if l.status_id.getD 0 = 142 then
    bump (l.responsible_user_id.getD 0) (fun c => { c with won := c.won + 1 }) m
  else if l.status_id.getD 0 = 143 then
    bump (l.responsible_user_id.getD 0)
      (fun c => { c with lost := c.lost + 1 }) m
  else m

/-- The per-user aggregation of `_compute_stats` over the two lead
iterators. -/
def compute_stats_by_user (createdResps closedResps : List (AmoPage Lead)) :
    List (ℤ × UCounts) :=
  (iter_closed_leads closedResps).foldl closed_step
    ((iter_created_leads createdResps).foldl created_step [])

theorem iter_created_eq_join (resps : List (AmoPage Lead)) :
    iter_created_leads resps = (consumed_pages 250 resps).flatten := by
  induction resps with
  | nil => rfl
  | cons pg rest ih =>
    cases pg with
    | fail => rfl
    | ok leads =>
      by_cases hnil : leads = []
      · subst hnil
        simp [iter_created_leads, consumed_pages]
      · by_cases hshort : leads.length < 250
        · simp [iter_created_leads, consumed_pages, hnil, hshort]
        · simp [iter_created_leads, consumed_pages, hnil, hshort, ih]

theorem iter_closed_eq_created (resps : List (AmoPage Lead)) :
    iter_closed_leads resps = iter_created_leads resps := by
  induction resps with
  | nil => rfl
  | cons pg rest ih =>
    cases pg with
    | fail => rfl
    | ok leads => simp [iter_created_leads, iter_closed_leads, ih]

theorem fetch_go_eq_join (resps : List (AmoPage AmoUser)) :
    ∀ out : List (ℤ × UserInfo),
      fetch_users_map_go resps out
        = ((consumed_pages 250 resps).flatten).foldl users_page_step out := by
  induction resps with
  | nil => intro out; rfl
  | cons pg rest ih =>
    intro out
    cases pg with
    | fail => rfl
    | ok users =>
      by_cases hshort : users.length < 250
      · simp [fetch_users_map_go, consumed_pages, hshort]
      · simp [fetch_users_map_go, consumed_pages, hshort, ih,
              List.foldl_append]

/-- C7: each pagination loop requests pages of 250 from page 1, stops at the
first non-200 answer, empty page, or page of fewer than 250 entries, and
processes exactly the entries of the pages fetched before that point, in
order: `_fetch_users_map` folds its dict updates over them, the two lead
iterators yield exactly their concatenation, and `_compute_stats` folds its
per-user counters over the yielded leads. -/
theorem c7_pagination_loops (uresps : List (AmoPage AmoUser))
    (cresps clresps : List (AmoPage Lead)) :
    (fetch_users_map uresps
      = ((consumed_pages 250 uresps).flatten).foldl users_page_step [])
    ∧ iter_created_leads cresps = (consumed_pages 250 cresps).flatten
    ∧ iter_closed_leads clresps = (consumed_pages 250 clresps).flatten
    ∧ compute_stats_by_user cresps clresps
      = ((consumed_pages 250 clresps).flatten).foldl closed_step
          (((consumed_pages 250 cresps).flatten).foldl created_step [])
    ∧ (∀ (es : List Lead) (rest : List (AmoPage Lead)), es.length < 250 →
        consumed_pages 250 (.ok es :: rest) = [es])
    ∧ (∀ rest : List (AmoPage Lead),
        consumed_pages 250 (.fail :: rest) = ([] : List (List Lead))) := by
  refine ⟨fetch_go_eq_join uresps [], iter_created_eq_join cresps,
          ?_, ?_, ?_, fun rest => rfl⟩
  · rw [iter_closed_eq_created, iter_created_eq_join]
  · rw [compute_stats_by_user, iter_closed_eq_created,
        iter_created_eq_join, iter_created_eq_join]
  · intro es rest h
    simp [consumed_pages, h]

theorem c7_pagination_loops_witness :
    (([⟨some 4, some 142⟩] : List Lead).length < 250)
    ∧ consumed_pages 250
        (AmoPage.ok ([⟨some 4, some 142⟩] : List Lead) :: [AmoPage.fail])
        = [[⟨some 4, some 142⟩]] := by
  refine ⟨by decide, ?_⟩
  exact (c7_pagination_loops [] [] []).2.2.2.2.1
    [⟨some 4, some 142⟩] [AmoPage.fail] (by decide)

/-! The AmoCRM webhook form parser `_parse_amo_hook` (`webhooks.py`).  Form
data is a list of key/value string pairs in iteration order; the Python dict
`results` keyed by integer index, and the per-index field dicts, are modelled
as insertion-ordered association lists. -/

/-- Value of a non-empty all-digit character list, `none` otherwise. -/
def digitsVal : List Char → Option ℕ
  | [] => none
  | cs =>
    if cs.all Char.isDigit then
      some (cs.foldl (fun n c => 10 * n + (c.toNat - 48)) 0)
    else none

/-- Python `int(s)` on the strings produced by the parser: an optional sign
followed by digits (surrounding whitespace and underscore separators, which
never occur in AmoCRM keys, are not modelled). -/
def pyInt (s : String) : Option ℤ :=
  match s.data with
  | '-' :: rest => (digitsVal rest).map (fun n => -(n : ℤ))
  | '+' :: rest => (digitsVal rest).map (fun n => (n : ℤ))
  | cs => (digitsVal cs).map (fun n => (n : ℤ))

/-- Python `s.strip("]")`: remove `]` characters from both ends. -/
def stripRB (s : String) : String :=
  ⟨((s.data.dropWhile (fun c => c = ']')).reverse.dropWhile
      (fun c => c = ']')).reverse⟩

/-- Python `key.startswith(prefix)` over the character lists. -/
def strStartsWith (s p : String) : Bool :=
  s.data.take p.data.length == p.data

/-- The per-key parsing step of `_parse_amo_hook`: keys starting with
`entity[event]` whose remainder splits (after stripping `]` and `[`) into an
integer index and a field name contribute `(index, field, value)`; every
other key contributes nothing (a failed `int()` is caught by the
`except (ValueError, IndexError)`). -/
def contrib (entity event : String) (kv : String × String) :
    Option (ℤ × String × String) :=
  let pfx := entity ++ "[" ++ event ++ "]"
  if strStartsWith kv.1 pfx then
    match (stripRB (kv.1.drop pfx.length)).splitOn "][" with
    | p0 :: p1 :: _ =>
      match pyInt (p0.replace "[" "") with
      | some i => some (i, p1, kv.2)
      | none => none
    | _ => none
  else none

/-- Assignment `results[index][field] = value` on the outer dict: update the
existing index entry in place, or append a fresh one. -/
def outerInsert (i : ℤ) (f v : String) :
    List (ℤ × List (String × String)) → List (ℤ × List (String × String))
  | [] => [(i, [(f, v)])]
  | (j, d) :: rest =>
      if j = i then (j, dictInsert f v d) :: rest
      else (j, d) :: outerInsert i f v rest

/-- The loop body of `_parse_amo_hook` for one form pair. -/
def hook_insert (entity event : String)
    (acc : List (ℤ × List (String × String))) (kv : String × String) :
    List (ℤ × List (String × String)) :=
  match contrib entity event kv with
  | some (i, f, v) => outerInsert i f v acc
  | none => acc

/-- Embedding of `_parse_amo_hook` (`webhooks.py`):
`list(results.values())` of the dict built over the form pairs. -/
def parse_amo_hook (form : List (String × String)) (entity event : String) :
    List (List (String × String)) :=
  (form.foldl (hook_insert entity event) []).map Prod.snd

/-- Distinct elements in order of first occurrence (Python dict key order),
with an accumulator of already-seen elements. -/
def firstDedupAux {α : Type} [DecidableEq α] (seen : List α) :
    List α → List α
  | [] => []
  | a :: l =>
    if a ∈ seen then firstDedupAux seen l
    else a :: firstDedupAux (a :: seen) l

/-- Distinct elements of a list in order of first occurrence. -/
def firstDedup {α : Type} [DecidableEq α] (l : List α) : List α :=
  firstDedupAux [] l

/-- The field dict accumulated for index `i` over the contributions `cs`:
every field of a contribution with index `i`, its last value winning. -/
def fields_for (i : ℤ) (cs : List (ℤ × String × String)) :
    List (String × String) :=
  cs.foldl (fun d c => if c.1 = i then dictInsert c.2.1 c.2.2 d else d) []

theorem firstDedupAux_append {α : Type} [DecidableEq α] (a : α) :
    ∀ (l seen : List α),
      firstDedupAux seen (l ++ [a])
        = firstDedupAux seen l ++ (if a ∈ seen ∨ a ∈ l then [] else [a]) := by
  intro l
  induction l with
  | nil => intro seen; simp [firstDedupAux]
  | cons b l ih =>
    intro seen
    by_cases hb : b ∈ seen
    · simp only [List.cons_append, firstDedupAux, if_pos hb]
      simp only [List.append_eq] at *
      rw [ih seen]
      congr 1
      refine if_congr ?_ rfl rfl
      simp only [List.mem_cons]
      constructor
      · rintro (h | h)
        · exact Or.inl h
        · exact Or.inr (Or.inr h)
      · rintro (h | h | h)
        · exact Or.inl h
        · exact Or.inl (h ▸ hb)
        · exact Or.inr h
    · simp only [List.cons_append, firstDedupAux, if_neg hb]
      simp only [List.append_eq]
      rw [ih (b :: seen)]
      congr 2
      refine if_congr ?_ rfl rfl
      simp only [List.mem_cons]
      tauto

theorem mem_firstDedupAux {α : Type} [DecidableEq α] (a : α) :
    ∀ (l seen : List α),
      a ∈ firstDedupAux seen l ↔ a ∈ l ∧ a ∉ seen := by
  intro l
  induction l with
  | nil => intro seen; simp [firstDedupAux]
  | cons b l ih =>
    intro seen
    by_cases hb : b ∈ seen
    · rw [firstDedupAux, if_pos hb, ih seen]
      simp only [List.mem_cons]
      constructor
      · rintro ⟨h1, h2⟩; exact ⟨Or.inr h1, h2⟩
      · rintro ⟨h1 | h1, h2⟩
        · exact absurd (h1 ▸ hb) h2
        · exact ⟨h1, h2⟩
    · rw [firstDedupAux, if_neg hb]
      simp only [List.mem_cons, ih (b :: seen)]
      by_cases hab : a = b
      · subst hab
        simp [hb]
      · simp only [hab, false_or]

theorem nodup_firstDedupAux {α : Type} [DecidableEq α] :
    ∀ (l seen : List α), (firstDedupAux seen l).Nodup := by
  intro l
  induction l with
  | nil => intro seen; simp [firstDedupAux]
  | cons b l ih =>
    intro seen
    by_cases hb : b ∈ seen
    · rw [firstDedupAux, if_pos hb]; exact ih seen
    · rw [firstDedupAux, if_neg hb]
      refine List.Nodup.cons ?_ (ih (b :: seen))
      intro hmem
      exact ((mem_firstDedupAux b l (b :: seen)).mp hmem).2
        (List.mem_cons_self b seen)

theorem firstDedup_append {α : Type} [DecidableEq α] (l : List α) (a : α) :
    firstDedup (l ++ [a])
      = firstDedup l ++ (if a ∈ l then [] else [a]) := by
  rw [firstDedup, firstDedupAux_append a l [], ← firstDedup]
  simp only [List.not_mem_nil, false_or]

theorem mem_firstDedup {α : Type} [DecidableEq α] (a : α) (l : List α) :
    a ∈ firstDedup l ↔ a ∈ l := by
  rw [firstDedup, mem_firstDedupAux a l []]
  simp

theorem nodup_firstDedup {α : Type} [DecidableEq α] (l : List α) :
    (firstDedup l).Nodup :=
  nodup_firstDedupAux l []

theorem fields_for_eq_nil (i : ℤ) :
    ∀ (cs : List (ℤ × String × String)),
      (∀ c ∈ cs, c.1 ≠ i) → fields_for i cs = [] := by
  have haux : ∀ (cs : List (ℤ × String × String))
      (d : List (String × String)), (∀ c ∈ cs, c.1 ≠ i) →
      cs.foldl (fun d c => if c.1 = i then dictInsert c.2.1 c.2.2 d else d) d
        = d := by
    intro cs
    induction cs with
    | nil => intro d _; rfl
    | cons c cs ih =>
      intro d h
      simp only [List.foldl_cons, if_neg (h c (List.mem_cons_self c cs))]
      exact ih d (fun c' hc' => h c' (List.mem_cons_of_mem c hc'))
  intro cs h
  exact haux cs [] h

theorem fields_for_append (i j : ℤ) (f v : String)
    (cs : List (ℤ × String × String)) :
    fields_for j (cs ++ [(i, f, v)])
      = if i = j then dictInsert f v (fields_for j cs)
        else fields_for j cs := by
  simp only [fields_for, List.foldl_append, List.foldl_cons, List.foldl_nil]

theorem outerInsert_mem (i : ℤ) (f v : String)
    (F : ℤ → List (String × String)) :
    ∀ idx : List ℤ, idx.Nodup → i ∈ idx →
      outerInsert i f v (idx.map (fun j => (j, F j)))
        = idx.map (fun j =>
            (j, if j = i then dictInsert f v (F j) else F j)) := by
  intro idx
  induction idx with
  | nil => intro _ h; exact absurd h (List.not_mem_nil i)
  | cons j0 tl ih =>
    intro hnd hmem
    simp only [List.map_cons, outerInsert]
    by_cases hj : j0 = i
    · rw [if_pos hj, if_pos hj]
      have htl : i ∉ tl := hj ▸ (List.nodup_cons.mp hnd).1
      congr 1
      refine (List.map_congr_left ?_).symm
      intro j hjtl
      have : j ≠ i := fun he => htl (he ▸ hjtl)
      rw [if_neg this]
    · rw [if_neg hj, if_neg hj]
      have hmem' : i ∈ tl := by
        rcases List.mem_cons.mp hmem with h | h
        · exact absurd h.symm hj
        · exact h
      rw [ih (List.nodup_cons.mp hnd).2 hmem']

theorem outerInsert_not_mem (i : ℤ) (f v : String)
    (F : ℤ → List (String × String)) :
    ∀ idx : List ℤ, i ∉ idx →
      outerInsert i f v (idx.map (fun j => (j, F j)))
        = idx.map (fun j => (j, F j)) ++ [(i, [(f, v)])] := by
  intro idx
  induction idx with
  | nil => intro _; rfl
  | cons j0 tl ih =>
    intro hmem
    have hj : j0 ≠ i := fun he => hmem (he ▸ List.mem_cons_self j0 tl)
    simp only [List.map_cons, outerInsert, if_neg hj, List.cons_append]
    rw [ih (fun h => hmem (List.mem_cons_of_mem j0 h))]

theorem build_pairs_eq :
    ∀ cs : List (ℤ × String × String),
      cs.foldl (fun acc c => outerInsert c.1 c.2.1 c.2.2 acc) []
        = (firstDedup (cs.map Prod.fst)).map
            (fun j => (j, fields_for j cs)) := by
  intro cs
  induction cs using List.reverseRecOn with
  | nil => rfl
  | append_singleton cs c ih =>
    obtain ⟨i, f, v⟩ := c
    rw [List.foldl_append, List.foldl_cons, List.foldl_nil, ih]
    have hmap : (cs ++ [(i, f, v)]).map Prod.fst = cs.map Prod.fst ++ [i] := by
      simp
    rw [hmap, firstDedup_append]
    by_cases hmem : i ∈ cs.map Prod.fst
    · rw [if_pos hmem, List.append_nil]
      have hmem' : i ∈ firstDedup (cs.map Prod.fst) :=
        (mem_firstDedup i (cs.map Prod.fst)).mpr hmem
      rw [outerInsert_mem i f v (fun j => fields_for j cs) _
            (nodup_firstDedup (cs.map Prod.fst)) hmem']
      refine List.map_congr_left ?_
      intro j _
      rw [fields_for_append]
      by_cases hij : i = j
      · rw [if_pos hij, if_pos hij.symm]
      · rw [if_neg hij, if_neg (fun h => hij h.symm)]
    · rw [if_neg hmem]
      have hmem' : i ∉ firstDedup (cs.map Prod.fst) := fun h =>
        hmem ((mem_firstDedup i (cs.map Prod.fst)).mp h)
      rw [outerInsert_not_mem i f v (fun j => fields_for j cs) _ hmem']
      rw [List.map_append]
      congr 1
      · refine List.map_congr_left ?_
        intro j hj
        have hjmem : j ∈ cs.map Prod.fst :=
          (mem_firstDedup j (cs.map Prod.fst)).mp hj
        have hij : i ≠ j := fun he => hmem (he ▸ hjmem)
        rw [fields_for_append, if_neg hij]
      · simp only [List.map_cons, List.map_nil]
        rw [fields_for_append, if_pos rfl]
        rw [fields_for_eq_nil i cs
              (fun c hc hce => hmem (hce ▸ List.mem_map_of_mem Prod.fst hc))]
        rfl

theorem foldl_hook_eq (entity event : String) :
    ∀ (form : List (String × String))
      (acc : List (ℤ × List (String × String))),
      form.foldl (hook_insert entity event) acc
        = (form.filterMap (contrib entity event)).foldl
            (fun acc c => outerInsert c.1 c.2.1 c.2.2 acc) acc := by
  intro form
  induction form with
  | nil => intro acc; rfl
  | cons kv form ih =>
    intro acc
    rw [List.foldl_cons, List.filterMap_cons]
    cases h : contrib entity event kv with
    | none =>
      rw [ih]
      congr 1
      simp only [hook_insert, h]
    | some c =>
      obtain ⟨i, f, v⟩ := c
      rw [List.foldl_cons, ih]
      congr 1
      simp only [hook_insert, h]

/-- C8: `_parse_amo_hook` returns exactly one dict per distinct index
occurring among the contributing keys (prefix `entity[event]`, integer index),
in first-occurrence order, each dict collecting the parsed field/value pairs
of that index (a repeated field keeping the last value, as with a Python
dict); keys that do not start with the prefix or whose index part is not an
integer contribute nothing, and a form with no contributing key parses to the
empty list. -/
theorem c8_parse_amo_hook (form : List (String × String))
    (entity event : String) :
    (parse_amo_hook form entity event
      = (firstDedup ((form.filterMap (contrib entity event)).map Prod.fst)).map
          (fun i => fields_for i (form.filterMap (contrib entity event))))
    ∧ (form.filterMap (contrib entity event) = [] →
        parse_amo_hook form entity event = [])
    ∧ (∀ (l1 l2 : List (String × String)) (kv : String × String),
        contrib entity event kv = none →
        parse_amo_hook (l1 ++ kv :: l2) entity event
          = parse_amo_hook (l1 ++ l2) entity event) := by
  have hmain : ∀ fm : List (String × String),
      parse_amo_hook fm entity event
        = (firstDedup ((fm.filterMap (contrib entity event)).map
            Prod.fst)).map
              (fun i => fields_for i (fm.filterMap (contrib entity event))) := by
    intro fm
    rw [parse_amo_hook, foldl_hook_eq entity event fm [], build_pairs_eq]
    rw [List.map_map]
    rfl
  refine ⟨hmain form, fun h => ?_, fun l1 l2 kv h => ?_⟩
  · rw [hmain form, h]
    rfl
  · rw [parse_amo_hook, parse_amo_hook,
        foldl_hook_eq entity event (l1 ++ kv :: l2) [],
        foldl_hook_eq entity event (l1 ++ l2) []]
    rw [List.filterMap_append, List.filterMap_append, List.filterMap_cons, h]

theorem c8_parse_amo_hook_witness :
    contrib "leads" "status" ("account[custom]", "y") = none
    ∧ parse_amo_hook
        ([("leads[status][0][id]", "5")] ++ ("account[custom]", "y")
          :: [("leads[status][0][price]", "900")]) "leads" "status"
      = parse_amo_hook
          ([("leads[status][0][id]", "5")]
            ++ [("leads[status][0][price]", "900")]) "leads" "status" := by
  refine ⟨by decide, ?_⟩
  exact (c8_parse_amo_hook [] "leads" "status").2.2
    [("leads[status][0][id]", "5")] [("leads[status][0][price]", "900")]
    ("account[custom]", "y") (by decide)

/-! Cascade-delete declarations of `models.py`.  A node per table; an edge
`parent → child` for every relationship declared with
`cascade="all, delete-orphan"` (the only delete cascades in the model file).
Relationships without a delete cascade (`Company.employees`,
`PartnerUser.companies`, the `ShopItem`/`FeedEvent`/`DailyStory`/
`AmoCRMUserDailyStat` links, `UserAchievement.achievement`) contribute no
edge.  Deleting a row of table `t` deletes rows of exactly the tables
reachable from `t` along these edges. -/

/-- The ORM tables of `models.py`. -/
inductive Table where
  | users
  | partner_users
  | companies
  | amocrm_connections
  | amocrm_user_maps
  | achievements
  | user_achievements
  | gamification_profiles
  | daily_buffs
  | transactions
  | challenges
  | challenge_progress
  | shop_items
  | user_inventory
  | posts
  | comments
  | likes
  | feed_events
  | daily_stories
  | amocrm_user_daily_stats
deriving DecidableEq, Repr, Fintype

/-- The `cascade="all, delete-orphan"` relationships of `models.py`, per
owning table, in declaration order. -/
def cascade_children : Table → List Table
  | .users =>
      [.partner_users, .gamification_profiles, .user_achievements,
       .daily_buffs, .transactions, .user_inventory, .amocrm_user_maps,
       .challenge_progress, .posts, .comments, .likes]
  | .companies => [.amocrm_connections, .amocrm_user_maps, .challenges]
  | .challenges => [.challenge_progress]
  | .posts => [.comments, .likes]
  | _ => []

/-- One round of following cascade edges from a set of tables. -/
def cascade_step (s : List Table) : List Table :=
  (s ++ (s.map cascade_children).flatten).dedup

/-- The tables whose rows a deletion in `t` cascades to: the reachable set
along cascade edges, computed by iterating `cascade_step` past the (small)
graph's depth. -/
def cascade_closure (t : Table) : List Table :=
  cascade_step^[6] (cascade_children t)

/-- C9 counterexample: the spec's list for deleting a `User` omits
`user_achievements`, yet `User.achievements` is declared with
`cascade="all, delete-orphan"`, so `UserAchievement` rows are deleted too —
"no other rows are affected" fails. -/
def c9_claimed_user_tables : List Table :=
  [.gamification_profiles, .partner_users, .daily_buffs, .transactions,
   .user_inventory, .amocrm_user_maps, .challenge_progress, .posts,
   .comments, .likes]

theorem c9_counterexample :
    Table.user_achievements ∈ cascade_closure Table.users
    ∧ Table.user_achievements ∉ c9_claimed_user_tables := by
  decide

/-- C9 (amended): deleting a `User` cascades to exactly the user's partner
profile, gamification profile, user achievements, daily buffs, transactions,
inventory rows, AmoCRM user maps, challenge progress, posts, comments and
likes; deleting a `Company` cascades to exactly its AmoCRM connection, user
maps, challenges and (through them) challenge progress; deleting a
`Challenge` cascades to exactly its progress records; no other table is
reached. -/
theorem c9_cascade_amended :
    (∀ t : Table, t ∈ cascade_closure Table.users ↔
      t ∈ [Table.partner_users, Table.gamification_profiles,
           Table.user_achievements, Table.daily_buffs, Table.transactions,
           Table.user_inventory, Table.amocrm_user_maps,
           Table.challenge_progress, Table.posts, Table.comments,
           Table.likes])
    ∧ (∀ t : Table, t ∈ cascade_closure Table.companies ↔
        t ∈ [Table.amocrm_connections, Table.amocrm_user_maps,
             Table.challenges, Table.challenge_progress])
    ∧ (∀ t : Table, t ∈ cascade_closure Table.challenges ↔
        t ∈ [Table.challenge_progress]) := by
  decide

end SalesJourney

